import Mathlib

/-!
# Hyprland OBS browser wrapper: verification of `plugin_main.cpp`

A shallow embedding of the plugin's texture-dock pipeline (coordinate remapping,
input re-dispatch, frame sampling), of the address normalisation performed by the two
address-field handlers, and of the dock-creating entry points.

Conventions of the embedding

* `qreal` is an IEEE 754 binary64 value (`double`): not-a-number, an infinity, or a finite
  value given by its sign and its magnitude, a rational.  Multiplication and division
  compute the exact rational result and round it to the nearest binary64 value, ties to
  even, overflowing to an infinity.  `int` is `Int`.
* A `QString` is the list of its characters.
* A division is a checked operation: `qdiv a b` is `none` when `b = 0`.  A function that
  divides returns an `Evaluated` value: the divisors it divided by and an optional result,
  `none` standing for "a division by zero was evaluated".  The event filter returns an
  `Option`, `none` standing for that or for "a `static_cast` was applied to an event of
  another class".
* Widgets are records of the attributes the plugin reads or writes; a pointer member is
  the record it points to, and object identity is a `QObjectRef`.
* Library calls whose result the plugin only stores (`QPixmap::scaled`, `QUrl(QString)`)
  are kept symbolic: the stored value records the call and its arguments.
-/

namespace HyprBrowser

/-! ## Qt value types -/

/-- A `QString`, as the list of its characters. -/
abbrev QString := List Char

/-- Integer size, `QSize`. -/
structure QSize where
  wd : Int
  ht : Int
  deriving DecidableEq, Repr

/-- A `qreal`, that is a `double`: an IEEE 754 binary64 value.  A finite value is given
by its sign (`neg`) and its magnitude, so that the two zeros are distinct values. -/
inductive qreal where
  | nan
  | inf (neg : Bool)
  | fin (neg : Bool) (mag : ℚ)
  deriving DecidableEq

/-- Rounding of a rational to the nearest integer, a tie going to the even one. -/
def roundHalfEven (q : ℚ) : ℤ :=
  if q - (⌊q⌋ : ℚ) < 1 / 2 then ⌊q⌋
  else if 1 / 2 < q - (⌊q⌋ : ℚ) then ⌊q⌋ + 1
  else if ⌊q⌋ % 2 = 0 then ⌊q⌋ else ⌊q⌋ + 1

/-- The exponent of the unit in the last place of binary64 at the magnitude `r`:
`e - 52` for `2 ^ e ≤ r < 2 ^ (e + 1)`, and `-1074` in the subnormal range. -/
def ulpExponent (r : ℚ) : ℤ := max (Int.log 2 r) (-1022) - 52

/-- The magnitude `r` rounded to a multiple of its unit in the last place (53 significant
bits, exponent unbounded above). -/
def roundMagnitude (r : ℚ) : ℚ :=
  (roundHalfEven (r / (2 : ℚ) ^ ulpExponent r) : ℚ) * (2 : ℚ) ^ ulpExponent r

/-- The binary64 value nearest to the exact value of sign `neg` and magnitude `r`, ties to
even: an infinity when the rounded magnitude reaches `2 ^ 1024`. -/
def qreal.round (neg : Bool) (r : ℚ) : qreal :=
  if (2 : ℚ) ^ (1024 : ℕ) ≤ roundMagnitude r then .inf neg else .fin neg (roundMagnitude r)

/-- Conversion of an `int` to `double`; it is exact, every `int` being a binary64 value. -/
def qreal.ofInt (i : Int) : qreal := .fin (decide (i < 0)) (i.natAbs : ℚ)

/-- Multiplication of doubles, `a * b`. -/
def qreal.mul : qreal → qreal → qreal
  | .nan, _ => .nan
  | _, .nan => .nan
  | .inf a, .inf b => .inf (xor a b)
  | .inf a, .fin b m => if m = 0 then .nan else .inf (xor a b)
  | .fin a m, .inf b => if m = 0 then .nan else .inf (xor a b)
  | .fin a m, .fin b n => qreal.round (xor a b) (m * n)

/-- Division of doubles, `a / b`. -/
def qreal.div : qreal → qreal → qreal
  | .nan, _ => .nan
  | _, .nan => .nan
  | .inf _, .inf _ => .nan
  | .inf a, .fin b _ => .inf (xor a b)
  | .fin a _, .inf b => .fin (xor a b) 0
  | .fin a m, .fin b n =>
    if n = 0 then (if m = 0 then .nan else .inf (xor a b))
    else qreal.round (xor a b) (m / n)

/-- The comparison `a <= 0.` of doubles. -/
def qreal.leZero : qreal → Bool
  | .nan => false
  | .inf neg => neg
  | .fin neg m => neg || decide (m ≤ 0)

/-- The double is a zero, of either sign. -/
def qreal.isZero : qreal → Bool
  | .fin _ m => decide (m = 0)
  | _ => false

/-- Real-valued size, `QSizeF`. -/
structure QSizeF where
  wd : qreal
  ht : qreal
  deriving DecidableEq

/-- Real-valued point, `QPointF`. -/
structure QPointF where
  xp : qreal
  yp : qreal
  deriving DecidableEq

/-- Integer point, `QPoint`. -/
structure QPoint where
  xp : Int
  yp : Int
  deriving DecidableEq

/-- `QSize::isEmpty`: either dimension is less than one. -/
def QSize.isEmpty (s : QSize) : Bool := decide (s.wd < 1) || decide (s.ht < 1)

/-- `QSizeF::isEmpty`: either dimension is less than or equal to zero. -/
def QSizeF.isEmpty (s : QSizeF) : Bool := s.wd.leZero || s.ht.leZero

/-- The converting constructor `QSizeF(const QSize &)`. -/
def QSize.toSizeF (s : QSize) : QSizeF := ⟨qreal.ofInt s.wd, qreal.ofInt s.ht⟩

/-- Checked division of doubles: undefined for a zero divisor. -/
def qdiv (a b : qreal) : Option qreal := if b.isZero then none else some (a.div b)

/-- `QString::startsWith(const QString &)`, case sensitive. -/
def QString.startsWith (s pre : QString) : Bool := pre.isPrefixOf s

/-- A `QUrl` built by `QUrl(const QString &)`: the string handed to the constructor. -/
structure QUrl where
  input : QString
  deriving DecidableEq

/-! ## Events -/

/-- The values of `QEvent::Type` the filter distinguishes, and some of the others. -/
inductive QEventType where
  | MouseButtonPress
  | MouseButtonRelease
  | MouseButtonDblClick
  | MouseMove
  | KeyPress
  | KeyRelease
  | ShortcutOverride
  | Wheel
  | FocusIn
  | FocusOut
  | Enter
  | Leave
  | Paint
  | Resize
  | Other (code : Nat)
  deriving DecidableEq

/-- The event types carried by a `QMouseEvent`. -/
inductive MouseEventType where
  | MouseButtonPress
  | MouseButtonRelease
  | MouseButtonDblClick
  | MouseMove
  deriving DecidableEq

/-- The event types carried by a `QKeyEvent`. -/
inductive KeyEventType where
  | KeyPress
  | KeyRelease
  | ShortcutOverride
  deriving DecidableEq

/-- The event types of events that are neither mouse, wheel nor key events. -/
inductive PlainEventType where
  | FocusIn
  | FocusOut
  | Enter
  | Leave
  | Paint
  | Resize
  | Other (code : Nat)
  deriving DecidableEq

/-- The fields of a `QMouseEvent` that the filter reads and that the five-argument
constructor `QMouseEvent(type, localPos, button, buttons, modifiers)` takes. -/
structure QMouseEvent where
  type : MouseEventType
  position : QPointF
  button : Nat
  buttons : Nat
  modifiers : Nat
  deriving DecidableEq

/-- The fields of a `QWheelEvent`, in the order of its constructor. -/
structure QWheelEvent where
  position : QPointF
  globalPosition : QPointF
  pixelDelta : QPoint
  angleDelta : QPoint
  buttons : Nat
  modifiers : Nat
  phase : Nat
  inverted : Bool
  source : Nat
  deriving DecidableEq

/-- The fields of a `QKeyEvent`, in the order of its constructor. -/
structure QKeyEvent where
  type : KeyEventType
  key : Int
  modifiers : Nat
  nativeScanCode : Nat
  nativeVirtualKey : Nat
  nativeModifiers : Nat
  text : QString
  isAutoRepeat : Bool
  count : Nat
  deriving DecidableEq

/-- An event object: its dynamic class together with its fields. -/
inductive QEvent where
  | mouse (e : QMouseEvent)
  | wheel (e : QWheelEvent)
  | key (e : QKeyEvent)
  | plain (t : PlainEventType)
  deriving DecidableEq

/-- `QMouseEvent::type()`. -/
def MouseEventType.toType : MouseEventType → QEventType
  | .MouseButtonPress => .MouseButtonPress
  | .MouseButtonRelease => .MouseButtonRelease
  | .MouseButtonDblClick => .MouseButtonDblClick
  | .MouseMove => .MouseMove

/-- `QKeyEvent::type()`. -/
def KeyEventType.toType : KeyEventType → QEventType
  | .KeyPress => .KeyPress
  | .KeyRelease => .KeyRelease
  | .ShortcutOverride => .ShortcutOverride

/-- The type of a plain event. -/
def PlainEventType.toType : PlainEventType → QEventType
  | .FocusIn => .FocusIn
  | .FocusOut => .FocusOut
  | .Enter => .Enter
  | .Leave => .Leave
  | .Paint => .Paint
  | .Resize => .Resize
  | .Other c => .Other c

/-- `QEvent::type()`. -/
def QEvent.type : QEvent → QEventType
  | .mouse e => e.type.toType
  | .wheel _ => .Wheel
  | .key e => e.type.toType
  | .plain t => t.toType

/-- `static_cast<QMouseEvent *>(event)`: defined only on a mouse event. -/
def QEvent.asMouse : QEvent → Option QMouseEvent
  | .mouse e => some e
  | _ => none

/-- `static_cast<QWheelEvent *>(event)`: defined only on a wheel event. -/
def QEvent.asWheel : QEvent → Option QWheelEvent
  | .wheel e => some e
  | _ => none

/-- `static_cast<QKeyEvent *>(event)`: defined only on a key event. -/
def QEvent.asKey : QEvent → Option QKeyEvent
  | .key e => some e
  | _ => none

/-! ## Pixmaps -/

/-- `Qt::AspectRatioMode`. -/
inductive AspectRatioMode where
  | IgnoreAspectRatio
  | KeepAspectRatio
  | KeepAspectRatioByExpanding
  deriving DecidableEq

/-- `Qt::TransformationMode`. -/
inductive TransformationMode where
  | FastTransformation
  | SmoothTransformation
  deriving DecidableEq

/-- A `QPixmap` as `QWidget::grab` returns it: the null pixmap, or a rendered frame
(identified by a serial number) of some size. -/
inductive QPixmap where
  | null
  | frame (serial : Nat) (size : QSize)
  deriving DecidableEq

/-- `QPixmap::isNull`. -/
def QPixmap.isNull : QPixmap → Bool
  | .null => true
  | .frame _ _ => false

/-- The result of `QPixmap::scaled(target, aspect, mode)` on a pixmap, kept as the call
and its arguments. -/
structure ScaledPixmap where
  src : QPixmap
  target : QSize
  aspect : AspectRatioMode
  mode : TransformationMode
  deriving DecidableEq

/-- `QPixmap::scaled`. -/
def QPixmap.scaled (p : QPixmap) (target : QSize) (aspect : AspectRatioMode)
    (mode : TransformationMode) : ScaledPixmap :=
  ⟨p, target, aspect, mode⟩

/-! ## Widgets -/

/-- Identity of the objects an event filter can be asked about. -/
inductive QObjectRef where
  | urlInput
  | browser
  | preview
  | frameTimer
  | widget
  | other (id : Nat)
  deriving DecidableEq

/-- The address field. -/
structure QLineEdit where
  text : QString
  deriving DecidableEq

/-- The browser view: its size, the URLs passed to `load`, and the events delivered to it
with `QCoreApplication::sendEvent`, oldest first. -/
structure QWebEngineView where
  size : QSize
  loaded : List QUrl
  received : List QEvent
  deriving DecidableEq

/-- The display surface: its size and its current pixmap (`none` until one is set). -/
structure QLabel where
  size : QSize
  pixmap : Option ScaledPixmap
  deriving DecidableEq

/-- The state of a `HyprBrowserTextureWidget`: its three child widgets and the object
that holds input focus in its window (`none` when no object does). -/
structure HyprBrowserTextureWidget where
  urlInput : QLineEdit
  browser : QWebEngineView
  preview : QLabel
  focus : Option QObjectRef
  deriving DecidableEq

/-- `QWebEngineView::load`. -/
def QWebEngineView.load (b : QWebEngineView) (u : QUrl) : QWebEngineView :=
  { b with loaded := b.loaded ++ [u] }

/-- `QCoreApplication::sendEvent(browser, &event)`. -/
def QWebEngineView.sendEvent (b : QWebEngineView) (e : QEvent) : QWebEngineView :=
  { b with received := b.received ++ [e] }

/-- The outcome of evaluating real arithmetic: the divisors of the divisions that were
evaluated, in order, and the value (`none` when one of those divisors was zero). -/
structure Evaluated (α : Type) where
  divisors : List qreal
  result : Option α

/-- `HyprBrowserTextureWidget::MapToBrowser`. -/
def HyprBrowserTextureWidget.MapToBrowser (self : HyprBrowserTextureWidget)
    (labelPos : QPointF) : Evaluated QPointF :=
  let src : QSizeF := self.preview.size.toSizeF
  let dst : QSizeF := self.browser.size.toSizeF
  if src.isEmpty then
    ⟨[], some labelPos⟩
  else
    ⟨[src.wd, src.ht],
      (qdiv dst.wd src.wd).bind fun scaleX =>
      (qdiv dst.ht src.ht).bind fun scaleY =>
      some ⟨labelPos.xp.mul scaleX, labelPos.yp.mul scaleY⟩⟩

/-- `QLabel::setPixmap`. -/
def QLabel.setPixmap (l : QLabel) (p : ScaledPixmap) : QLabel :=
  { l with pixmap := some p }

/-- `preview->setFocus()`: the preview becomes the focus holder. -/
def HyprBrowserTextureWidget.setFocusPreview (self : HyprBrowserTextureWidget) :
    HyprBrowserTextureWidget :=
  { self with focus := some QObjectRef.preview }

/-- `HyprBrowserTextureWidget::eventFilter`.  `base` is `QWidget::eventFilter`; the result
is the returned flag together with the state of the widget afterwards. -/
def HyprBrowserTextureWidget.eventFilter (base : QObjectRef → QEvent → Bool)
    (self : HyprBrowserTextureWidget) (watched : QObjectRef) (event : QEvent) :
    Option (Bool × HyprBrowserTextureWidget) :=
  if watched ≠ QObjectRef.preview then
    some (base watched event, self)
  else
    match event.type with
    | .MouseButtonPress | .MouseButtonRelease | .MouseMove =>
      event.asMouse.bind fun me =>
      (self.MapToBrowser me.position).result.bind fun pos =>
      let mapped : QMouseEvent := ⟨me.type, pos, me.button, me.buttons, me.modifiers⟩
      let self := { self with browser := self.browser.sendEvent (.mouse mapped) }
      let self := self.setFocusPreview
      some (true, self)
    | .Wheel =>
      event.asWheel.bind fun we =>
      (self.MapToBrowser we.position).result.bind fun pos =>
      let mapped : QWheelEvent :=
        ⟨pos, we.globalPosition, we.pixelDelta, we.angleDelta, we.buttons, we.modifiers,
          we.phase, we.inverted, we.source⟩
      let self := { self with browser := self.browser.sendEvent (.wheel mapped) }
      some (true, self)
    | .KeyPress | .KeyRelease =>
      event.asKey.bind fun ke =>
      let mapped : QKeyEvent :=
        ⟨ke.type, ke.key, ke.modifiers, ke.nativeScanCode, ke.nativeVirtualKey,
          ke.nativeModifiers, ke.text, ke.isAutoRepeat, ke.count⟩
      let self := { self with browser := self.browser.sendEvent (.key mapped) }
      some (true, self)
    | _ => some (base watched event, self)

/-- `HyprBrowserTextureWidget::UpdateFrame`; `grabbed` is the result of
`browser->grab()`. -/
def HyprBrowserTextureWidget.UpdateFrame (self : HyprBrowserTextureWidget)
    (grabbed : QPixmap) : HyprBrowserTextureWidget :=
  let pixmap := grabbed
  if pixmap.isNull then
    self
  else
    let target : QSize := if self.preview.size.isEmpty then ⟨320, 180⟩ else self.preview.size
    { self with
      preview := self.preview.setPixmap
        (pixmap.scaled target .KeepAspectRatio .SmoothTransformation) }

/-- The `returnPressed` handler of the address field of a `HyprBrowserTextureWidget`. -/
def HyprBrowserTextureWidget.returnPressed (self : HyprBrowserTextureWidget) :
    HyprBrowserTextureWidget :=
  let input := self.urlInput.text
  let input :=
    if !input.startsWith "http://".data && !input.startsWith "https://".data then
      "https://".data ++ input
    else input
  { self with browser := self.browser.load ⟨input⟩ }

/-- The direct-embed content built by `CreateBrowserContent`: the address field and
the visible browser. -/
structure BrowserContent where
  urlInput : QLineEdit
  realBrowser : QWebEngineView
  deriving DecidableEq

/-- The `returnPressed` handler connected in `CreateBrowserContent`. -/
def CreateBrowserContent.returnPressed (c : BrowserContent) : BrowserContent :=
  let input := c.urlInput.text
  let input :=
    if !input.startsWith "http://".data && !input.startsWith "https://".data then
      "https://".data ++ input
    else input
  { c with realBrowser := c.realBrowser.load ⟨input⟩ }

/-! ## Environment probe -/

/-- The process environment: the value of each variable, `none` when it is not set. -/
abbrev Environment := String → Option QString

/-- `qEnvironmentVariableIsSet`. -/
def qEnvironmentVariableIsSet (env : Environment) (name : String) : Bool :=
  (env name).isSome

/-- `qEnvironmentVariable`: the value, or a null (empty) string when not set. -/
def qEnvironmentVariable (env : Environment) (name : String) : QString :=
  (env name).getD []

/-- `QString::compare(other, Qt::CaseInsensitive)`: lexical comparison of the case-folded
strings, negative, zero or positive.  `foldCase` is the case folding of a character. -/
def QString.compare (foldCase : Char → Char) : QString → QString → Int
  | [], [] => 0
  | [], _ :: _ => -1
  | _ :: _, [] => 1
  | a :: s, b :: t =>
    if foldCase a = foldCase b then QString.compare foldCase s t
    else if (foldCase a).toNat < (foldCase b).toNat then -1 else 1

/-- `QString::contains(pattern, Qt::CaseInsensitive)`. -/
def QString.contains (foldCase : Char → Char) (s pattern : QString) : Bool :=
  (s.map foldCase).tails.any fun t => (pattern.map foldCase).isPrefixOf t

/-- `IsWaylandSession`. -/
def IsWaylandSession (foldCase : Char → Char) (env : Environment) : Bool :=
  if qEnvironmentVariableIsSet env "WAYLAND_DISPLAY"
      || qEnvironmentVariableIsSet env "WAYLAND_SOCKET" then
    true
  else
    let sessionType := qEnvironmentVariable env "XDG_SESSION_TYPE"
    decide (QString.compare foldCase sessionType "wayland".data = 0)

/-- `IsHyprland`. -/
def IsHyprland (foldCase : Char → Char) (env : Environment) : Bool :=
  let desktop := qEnvironmentVariable env "XDG_CURRENT_DESKTOP"
  QString.contains foldCase desktop "Hyprland".data

/-! ## Docks and the host -/

/-- `Qt::DockWidgetArea`. -/
inductive DockWidgetArea where
  | LeftDockWidgetArea
  | RightDockWidgetArea
  | TopDockWidgetArea
  | BottomDockWidgetArea
  deriving DecidableEq

/-- `QDockWidget::DockWidgetFeature`. -/
inductive DockWidgetFeature where
  | DockWidgetClosable
  | DockWidgetMovable
  | DockWidgetFloatable
  deriving DecidableEq

/-- What a dock shows: the direct-embed content of `CreateBrowserContent`, or a
`HyprBrowserTextureWidget`. -/
inductive DockContent where
  | BrowserContent
  | TextureWidget
  deriving DecidableEq

/-- A dock widget. -/
structure QDockWidget where
  windowTitle : String
  objectName : String
  features : List DockWidgetFeature
  allowedAreas : List DockWidgetArea
  widget : DockContent
  floating : Bool
  visible : Bool
  raised : Bool
  active : Bool
  deriving DecidableEq

/-- The constructor of `HyprBrowserDock`. -/
def HyprBrowserDock.new : QDockWidget :=
  { windowTitle := "Hyprland Browser Wrapper"
    objectName := "HyprBrowserDock"
    features := [.DockWidgetMovable, .DockWidgetClosable, .DockWidgetFloatable]
    allowedAreas := [.LeftDockWidgetArea, .RightDockWidgetArea, .TopDockWidgetArea,
      .BottomDockWidgetArea]
    widget := .BrowserContent
    floating := false
    visible := false
    raised := false
    active := false }

/-- The constructor of `HyprBrowserTextureDock`. -/
def HyprBrowserTextureDock.new : QDockWidget :=
  { windowTitle := "Hyprland Browser Wrapper (Wayland dock workaround)"
    objectName := "HyprBrowserTextureDock"
    features := [.DockWidgetMovable, .DockWidgetClosable, .DockWidgetFloatable]
    allowedAreas := [.LeftDockWidgetArea, .RightDockWidgetArea, .TopDockWidgetArea,
      .BottomDockWidgetArea]
    widget := .TextureWidget
    floating := false
    visible := false
    raised := false
    active := false }

/-- The host main window: the docks attached to it, oldest first, each with its area. -/
structure QMainWindow where
  docks : List (DockWidgetArea × QDockWidget)
  deriving DecidableEq

/-- A line written with `blog`: level, format string and the integer argument. -/
structure LogLine where
  level : String
  format : String
  arg : Int
  deriving DecidableEq

/-- The observable state of the host: what `obs_frontend_get_main_window` returns
(`none` for a null pointer) and the log. -/
structure Host where
  mainWindow : Option QMainWindow
  log : List LogLine
  deriving DecidableEq

/-- `AttachAndShowDock`. -/
def AttachAndShowDock (mainWindow : QMainWindow) (dock : QDockWidget)
    (area : DockWidgetArea) (floating : Bool) : QMainWindow :=
  let dock := { dock with floating := floating }
  let dock := { dock with visible := true }
  let dock := { dock with raised := true }
  let dock := { dock with active := true }
  { mainWindow with docks := mainWindow.docks ++ [(area, dock)] }

/-- The format string of the diagnostic line of `CreateHyprDock`. -/
def waylandLogFormat : String :=
  "[hyprland-browser-wrapper] Wayland session detected (Hyprland=%d); " ++
  "using texture-based dock to avoid QWebEngine reparent crash."

/-- `CreateHyprDock`. -/
def CreateHyprDock (foldCase : Char → Char) (env : Environment) (host : Host) : Host :=
  match host.mainWindow with
  | none => host
  | some mainWindow =>
    if IsWaylandSession foldCase env then
      let host := { host with
        log := host.log ++
          [LogLine.mk "LOG_WARNING" waylandLogFormat
            (if IsHyprland foldCase env then 1 else 0)] }
      let dock := HyprBrowserTextureDock.new
      { host with
        mainWindow := some (AttachAndShowDock mainWindow dock .RightDockWidgetArea false) }
    else
      let dock := HyprBrowserDock.new
      { host with
        mainWindow := some (AttachAndShowDock mainWindow dock .RightDockWidgetArea true) }

/-- `CreateHyprTextureDock`. -/
def CreateHyprTextureDock (host : Host) : Host :=
  match host.mainWindow with
  | none => host
  | some mainWindow =>
    let dock := HyprBrowserTextureDock.new
    { host with
      mainWindow := some (AttachAndShowDock mainWindow dock .RightDockWidgetArea false) }

/-! ## Concrete states used as examples -/

/-- A texture widget whose preview is 320 by 180 and whose browser is 1280 by 720. -/
def sampleWidget : HyprBrowserTextureWidget :=
  { urlInput := ⟨"google.com".data⟩
    browser := ⟨⟨1280, 720⟩, [], []⟩
    preview := ⟨⟨320, 180⟩, none⟩
    focus := some QObjectRef.urlInput }

/-- A texture widget whose preview is 525 by 180 and whose browser is 1280 by 720. -/
def narrowWidget : HyprBrowserTextureWidget :=
  { sampleWidget with preview := ⟨⟨525, 180⟩, none⟩ }

/-- An X11 environment. -/
def x11Env : Environment := fun name =>
  if name = "XDG_SESSION_TYPE" then some "x11".data else none

/-- A Hyprland environment. -/
def hyprlandEnv : Environment := fun name =>
  if name = "XDG_SESSION_TYPE" then some "Wayland".data
  else if name = "XDG_CURRENT_DESKTOP" then some "Hyprland".data
  else none

/-- A wheel event over the preview. -/
def sampleWheel : QWheelEvent :=
  { position := ⟨qreal.ofInt 160, qreal.ofInt 90⟩
    globalPosition := ⟨qreal.ofInt 500, qreal.ofInt 400⟩
    pixelDelta := ⟨0, 0⟩
    angleDelta := ⟨0, 120⟩
    buttons := 0
    modifiers := 0
    phase := 0
    inverted := false
    source := 0 }

/-- The condition of the auto-workaround, in the words of the specification: the session
type equals "wayland" up to case, or one of the two Wayland marker variables is set. -/
def WaylandMarkers (foldCase : Char → Char) (env : Environment) : Prop :=
  (∃ v, env "XDG_SESSION_TYPE" = some v ∧ v.map foldCase = "wayland".data.map foldCase)
    ∨ (env "WAYLAND_DISPLAY").isSome = true
    ∨ (env "WAYLAND_SOCKET").isSome = true

/-- The event types the filter intercepts on the preview. -/
def interceptedTypes : List QEventType :=
  [.MouseButtonPress, .MouseButtonRelease, .MouseMove, .Wheel, .KeyPress, .KeyRelease]

/-! ## Coordinate remapping -/

theorem roundHalfEven_intCast (z : ℤ) : roundHalfEven (z : ℚ) = z := by
  simp [roundHalfEven]

theorem roundHalfEven_of_lt (q : ℚ) (f : ℤ) (h1 : (f : ℚ) ≤ q) (h2 : q < f + 1 / 2) :
    roundHalfEven q = f := by
  have hf : ⌊q⌋ = f := by
    rw [Int.floor_eq_iff]
    exact ⟨h1, by linarith⟩
  simp only [roundHalfEven, hf]
  rw [if_pos (by linarith)]

theorem roundHalfEven_of_gt (q : ℚ) (f : ℤ) (h1 : (f : ℚ) + 1 / 2 < q) (h2 : q < f + 1) :
    roundHalfEven q = f + 1 := by
  have hf : ⌊q⌋ = f := by
    rw [Int.floor_eq_iff]
    exact ⟨by linarith, h2⟩
  simp only [roundHalfEven, hf]
  rw [if_neg (by linarith), if_pos (by linarith)]

theorem roundHalfEven_le (q : ℚ) (n : ℤ) (h : q ≤ n) : roundHalfEven q ≤ n := by
  have hfl : ⌊q⌋ ≤ n := by
    have := Int.floor_le q
    exact_mod_cast (le_trans this h)
  rcases lt_or_eq_of_le hfl with hlt | heq
  · have h1 : roundHalfEven q ≤ ⌊q⌋ + 1 := by
      unfold roundHalfEven
      split_ifs <;> omega
    omega
  · have hq : q = (n : ℚ) := by
      apply le_antisymm h
      rw [← heq]
      exact Int.floor_le q
    rw [hq, roundHalfEven_intCast]

theorem ulpExponent_eq (r : ℚ) (e : ℤ) (he : -1022 ≤ e) (h1 : (2 : ℚ) ^ e ≤ r)
    (h2 : r < (2 : ℚ) ^ (e + 1)) : ulpExponent r = e - 52 := by
  have hr : 0 < r := lt_of_lt_of_le (by positivity) h1
  have hl : Int.log 2 r = e := by
    apply le_antisymm
    · have := (Int.lt_zpow_iff_log_lt (R := ℚ) (b := 2) (by norm_num) hr (x := e + 1)).mp
        (by exact_mod_cast h2)
      omega
    · exact (Int.zpow_le_iff_le_log (R := ℚ) (b := 2) (by norm_num) hr (x := e)).mp
        (by exact_mod_cast h1)
  simp [ulpExponent, hl, he]

/-- A natural number below `2 ^ 53` is a binary64 value: rounding leaves it as it is. -/
theorem roundMagnitude_natCast (n : ℕ) (h : n < 2 ^ 53) : roundMagnitude (n : ℚ) = n := by
  rcases Nat.eq_zero_or_pos n with h0 | hpos
  · subst h0
    simp [roundMagnitude, roundHalfEven]
  · have hlog : Nat.log 2 n < 53 := Nat.log_lt_of_lt_pow (by omega) h
    have hu : ulpExponent (n : ℚ) = -((52 - Nat.log 2 n : ℕ) : ℤ) := by
      unfold ulpExponent
      rw [Int.log_natCast]
      omega
    unfold roundMagnitude
    rw [hu, zpow_neg, zpow_natCast, div_inv_eq_mul]
    have hc : (n : ℚ) * 2 ^ (52 - Nat.log 2 n) = ((n * 2 ^ (52 - Nat.log 2 n) : ℤ) : ℚ) := by
      push_cast
      ring
    rw [hc, roundHalfEven_intCast]
    push_cast
    field_simp

/-- Rounding does not carry a magnitude below `2 ^ 32` beyond `2 ^ 32`. -/
theorem roundMagnitude_le (r : ℚ) (h0 : 0 ≤ r) (h : r < 2 ^ (32 : ℕ)) :
    roundMagnitude r ≤ 2 ^ (32 : ℕ) := by
  rcases eq_or_lt_of_le h0 with hz | hpos
  · subst hz
    simp [roundMagnitude, roundHalfEven]
  · have hlog : Int.log 2 r < 32 :=
      (Int.lt_zpow_iff_log_lt (R := ℚ) (b := 2) (by norm_num) hpos (x := 32)).mp
        (by exact_mod_cast h)
    have hlt : r < (2 : ℚ) ^ (Int.log 2 r + 1) := by
      have := Int.lt_zpow_succ_log_self (R := ℚ) (b := 2) (by norm_num) r
      exact_mod_cast this
    have hu : ulpExponent r + 53 = max (Int.log 2 r) (-1022) + 1 := by
      unfold ulpExponent
      omega
    have hup : (0 : ℚ) < (2 : ℚ) ^ ulpExponent r := by positivity
    have hlt2 : r < (2 : ℚ) ^ (ulpExponent r + 53) := by
      rw [hu]
      apply lt_of_lt_of_le hlt
      apply zpow_le_zpow_right₀ (by norm_num)
      omega
    have hq : r / (2 : ℚ) ^ ulpExponent r ≤ ((2 ^ 53 : ℤ) : ℚ) := by
      rw [div_le_iff₀ hup]
      rw [zpow_add₀ (by norm_num)] at hlt2
      push_cast
      have : (2 : ℚ) ^ (53 : ℤ) = 2 ^ (53 : ℕ) := by norm_cast
      rw [this] at hlt2
      linarith
    have hr := roundHalfEven_le _ _ hq
    have hr2 : (roundHalfEven (r / (2 : ℚ) ^ ulpExponent r) : ℚ) ≤ 2 ^ (53 : ℕ) := by
      exact_mod_cast hr
    unfold roundMagnitude
    calc (roundHalfEven (r / (2 : ℚ) ^ ulpExponent r) : ℚ) * (2 : ℚ) ^ ulpExponent r
        ≤ 2 ^ (53 : ℕ) * (2 : ℚ) ^ ulpExponent r :=
          mul_le_mul_of_nonneg_right hr2 (le_of_lt hup)
      _ = (2 : ℚ) ^ (ulpExponent r + 53) := by
          rw [zpow_add₀ (by norm_num)]
          have : (2 : ℚ) ^ (53 : ℤ) = 2 ^ (53 : ℕ) := by norm_cast
          rw [this]
          ring
      _ ≤ (2 : ℚ) ^ (32 : ℤ) := by
          apply zpow_le_zpow_right₀ (by norm_num)
          omega
      _ = 2 ^ (32 : ℕ) := by norm_cast

theorem qreal.round_natCast (s : Bool) (n : ℕ) (h : n < 2 ^ 53) :
    qreal.round s (n : ℚ) = .fin s n := by
  have hlt : ¬ ((2 : ℚ) ^ (1024 : ℕ) ≤ (n : ℚ)) := by
    have h1 : (n : ℚ) < 2 ^ (53 : ℕ) := by exact_mod_cast h
    have h2 : (2 : ℚ) ^ (53 : ℕ) ≤ 2 ^ (1024 : ℕ) :=
      pow_le_pow_right₀ (by norm_num) (by norm_num)
    linarith
  simp only [qreal.round, roundMagnitude_natCast n h, if_neg hlt]

theorem qreal.round_of_lt (s : Bool) (r : ℚ) (h0 : 0 ≤ r) (h : r < 2 ^ (32 : ℕ)) :
    qreal.round s r = .fin s (roundMagnitude r) := by
  have hlt : ¬ ((2 : ℚ) ^ (1024 : ℕ) ≤ roundMagnitude r) := by
    have h1 := roundMagnitude_le r h0 h
    have h2 : (2 : ℚ) ^ (32 : ℕ) < 2 ^ (1024 : ℕ) :=
      pow_lt_pow_right₀ (by norm_num) (by norm_num)
    linarith
  simp only [qreal.round, if_neg hlt]

theorem qreal.ofInt_leZero (i : Int) : (qreal.ofInt i).leZero = decide (i ≤ 0) := by
  rcases lt_trichotomy i 0 with h | h | h
  · simp [qreal.ofInt, qreal.leZero, h, le_of_lt h]
  · subst h
    simp [qreal.ofInt, qreal.leZero]
  · have h1 : ¬ i < 0 := by omega
    have h2 : ¬ i ≤ 0 := by omega
    have h3 : i ≠ 0 := by omega
    simp [qreal.ofInt, qreal.leZero, h1, h2, h3]

theorem qreal.ofInt_isZero (i : Int) : (qreal.ofInt i).isZero = decide (i = 0) := by
  simp [qreal.ofInt, qreal.isZero]

/-- The scale computed by `MapToBrowser` on one axis: the quotient of the two sizes,
rounded. -/
theorem qreal.div_ofInt (a b : Int) (hb : 0 < b) (ha : a.natAbs ≤ 2 ^ 31) :
    (qreal.ofInt a).div (qreal.ofInt b) =
      .fin (decide (a < 0)) (roundMagnitude ((a.natAbs : ℚ) / (b.natAbs : ℚ))) := by
  have hb1 : ¬ b < 0 := by omega
  have hb2 : (1 : ℚ) ≤ (b.natAbs : ℚ) := by
    have : 1 ≤ b.natAbs := by omega
    exact_mod_cast this
  have hb3 : (b.natAbs : ℚ) ≠ 0 := by linarith
  have ha2 : a.natAbs < 2 ^ 32 := by omega
  have ha1 : ((a.natAbs : ℚ)) < 2 ^ (32 : ℕ) := by exact_mod_cast ha2
  have ha0 : (0 : ℚ) ≤ (a.natAbs : ℚ) := by positivity
  have hq0 : (0 : ℚ) ≤ (a.natAbs : ℚ) / (b.natAbs : ℚ) := by positivity
  have hq1 : (a.natAbs : ℚ) / (b.natAbs : ℚ) < 2 ^ (32 : ℕ) := by
    have : (a.natAbs : ℚ) / (b.natAbs : ℚ) ≤ (a.natAbs : ℚ) :=
      div_le_self ha0 hb2
    linarith
  have hb4 : b ≠ 0 := by omega
  simp only [qreal.ofInt, qreal.div]
  rw [if_neg (by simpa using hb4), qreal.round_of_lt _ _ hq0 hq1]
  simp [hb1]

theorem MapToBrowser_of_positive (self : HyprBrowserTextureWidget) (p : QPointF)
    (hw : 0 < self.preview.size.wd) (hh : 0 < self.preview.size.ht) :
    self.MapToBrowser p =
      ⟨[qreal.ofInt self.preview.size.wd, qreal.ofInt self.preview.size.ht],
        some ⟨p.xp.mul ((qreal.ofInt self.browser.size.wd).div
            (qreal.ofInt self.preview.size.wd)),
          p.yp.mul ((qreal.ofInt self.browser.size.ht).div
            (qreal.ofInt self.preview.size.ht))⟩⟩ := by
  have hw0 : ¬ self.preview.size.wd ≤ 0 := by omega
  have hh0 : ¬ self.preview.size.ht ≤ 0 := by omega
  have hw1 : self.preview.size.wd ≠ 0 := by omega
  have hh1 : self.preview.size.ht ≠ 0 := by omega
  simp [HyprBrowserTextureWidget.MapToBrowser, QSize.toSizeF, QSizeF.isEmpty, qdiv,
    qreal.ofInt_leZero, qreal.ofInt_isZero, hw0, hh0, hw1, hh1]

theorem MapToBrowser_of_empty (self : HyprBrowserTextureWidget) (p : QPointF)
    (h : self.preview.size.wd ≤ 0 ∨ self.preview.size.ht ≤ 0) :
    self.MapToBrowser p = ⟨[], some p⟩ := by
  have h3 : self.preview.size.toSizeF.isEmpty = true := by
    simpa [QSize.toSizeF, QSizeF.isEmpty, qreal.ofInt_leZero] using h
  simp [HyprBrowserTextureWidget.MapToBrowser, h3]

/-- The remapped position, as a total function: the value `MapToBrowser` always has. -/
theorem MapToBrowser_result_isSome (self : HyprBrowserTextureWidget) (p : QPointF) :
    ∃ q, (self.MapToBrowser p).result = some q := by
  by_cases h : self.preview.size.wd ≤ 0 ∨ self.preview.size.ht ≤ 0
  · exact ⟨p, by rw [MapToBrowser_of_empty self p h]⟩
  · push_neg at h
    exact ⟨_, by rw [MapToBrowser_of_positive self p h.1 h.2]⟩

theorem roundMagnitude_eval (r : ℚ) (e z : ℤ) (he : -1022 ≤ e) (h1 : (2 : ℚ) ^ e ≤ r)
    (h2 : r < (2 : ℚ) ^ (e + 1)) (hz : roundHalfEven (r / (2 : ℚ) ^ (e - 52)) = z) :
    roundMagnitude r = (z : ℚ) * (2 : ℚ) ^ (e - 52) := by
  unfold roundMagnitude
  rw [ulpExponent_eq r e he h1 h2, hz]

/-- The quotient 1280 / 525 in binary64. -/
theorem roundMagnitude_1280_div_525 :
    roundMagnitude ((1280 : ℚ) / 525) = 5490102402889748 / 2 ^ (51 : ℕ) := by
  have hz : roundHalfEven ((1280 : ℚ) / 525 / (2 : ℚ) ^ ((1 : ℤ) - 52)) =
      5490102402889747 + 1 := by
    apply roundHalfEven_of_gt <;> norm_num
  rw [roundMagnitude_eval _ 1 _ (by norm_num) (by norm_num) (by norm_num) hz]
  norm_num

/-- The product of 525 and the binary64 quotient 1280 / 525, in binary64. -/
theorem roundMagnitude_525_mul :
    roundMagnitude ((525 : ℚ) * (5490102402889748 / 2 ^ (51 : ℕ))) =
      1280 + 1 / 2 ^ (42 : ℕ) := by
  have hz : roundHalfEven ((525 : ℚ) * (5490102402889748 / 2 ^ (51 : ℕ)) /
      (2 : ℚ) ^ ((10 : ℤ) - 52)) = 5629499534213120 + 1 := by
    apply roundHalfEven_of_gt <;> norm_num
  rw [roundMagnitude_eval _ 10 _ (by norm_num) (by norm_num) (by norm_num) hz]
  norm_num

theorem qreal.round_zero (s : Bool) : qreal.round s 0 = .fin s 0 := by
  have h := qreal.round_natCast s 0 (by norm_num)
  simpa using h

theorem qreal.ofInt_of_pos (i : Int) (h : 0 < i) :
    qreal.ofInt i = .fin false (i.natAbs : ℚ) := by
  have h1 : ¬ i < 0 := by omega
  simp [qreal.ofInt, h1]

/-- A zero coordinate is sent to a zero, of the sign of the browser size. -/
theorem MapToBrowser_zero_axis (a b : Int) (hb : 0 < b) (ha : a.natAbs ≤ 2 ^ 31) :
    (qreal.ofInt 0).mul ((qreal.ofInt a).div (qreal.ofInt b)) = .fin (decide (a < 0)) 0 := by
  rw [qreal.div_ofInt a b hb ha]
  simp [qreal.ofInt, qreal.mul, qreal.round_zero]

/-- The far edge of the display surface is sent to the far edge of the browser surface
when the quotient of the two sizes is a binary64 value. -/
theorem MapToBrowser_edge_axis (a b : Int) (hb : 0 < b) (ha : a.natAbs ≤ 2 ^ 31)
    (hq : roundMagnitude ((a.natAbs : ℚ) / (b.natAbs : ℚ)) =
      (a.natAbs : ℚ) / (b.natAbs : ℚ)) :
    (qreal.ofInt b).mul ((qreal.ofInt a).div (qreal.ofInt b)) = qreal.ofInt a := by
  have hb3 : (b.natAbs : ℚ) ≠ 0 := by
    have : b.natAbs ≠ 0 := by omega
    exact_mod_cast this
  rw [qreal.div_ofInt a b hb ha, hq, qreal.ofInt_of_pos b hb]
  simp only [qreal.mul, Bool.false_xor]
  rw [mul_div_cancel₀ _ hb3, qreal.round_natCast _ _ (by omega)]
  rfl

/-- C1 fails as stated: with a display surface of 525 by 180 and a browser surface of 1280
by 720, the corner (525, 0) is sent to (1280 + 2⁻⁴², 0), that is 1280.0000000000002,
not to (1280, 0). -/
theorem MapToBrowser_corner_counterexample :
    narrowWidget.preview.size = ⟨525, 180⟩
    ∧ narrowWidget.browser.size = ⟨1280, 720⟩
    ∧ (narrowWidget.MapToBrowser ⟨qreal.ofInt 525, qreal.ofInt 0⟩).result =
        some ⟨.fin false (1280 + 1 / 2 ^ (42 : ℕ)), .fin false 0⟩
    ∧ (narrowWidget.MapToBrowser ⟨qreal.ofInt 525, qreal.ofInt 0⟩).result ≠
        some ⟨qreal.ofInt 1280, qreal.ofInt 0⟩ := by
  have hx : (qreal.ofInt 525).mul ((qreal.ofInt 1280).div (qreal.ofInt 525)) =
      .fin false (1280 + 1 / 2 ^ (42 : ℕ)) := by
    rw [qreal.div_ofInt 1280 525 (by norm_num) (by decide)]
    have h1 : (((1280 : Int).natAbs : ℚ) / ((525 : Int).natAbs : ℚ)) = (1280 : ℚ) / 525 := by
      norm_num
    rw [h1, roundMagnitude_1280_div_525]
    have h2 : qreal.ofInt 525 = .fin false 525 := by
      rw [qreal.ofInt_of_pos 525 (by norm_num)]
      norm_num
    rw [h2]
    simp only [qreal.mul, qreal.round, roundMagnitude_525_mul]
    norm_num
  have hy : (qreal.ofInt 0).mul ((qreal.ofInt 720).div (qreal.ofInt 180)) = .fin false 0 := by
    rw [MapToBrowser_zero_axis 720 180 (by norm_num) (by decide)]
    simp
  have hres : (narrowWidget.MapToBrowser ⟨qreal.ofInt 525, qreal.ofInt 0⟩).result =
      some ⟨.fin false (1280 + 1 / 2 ^ (42 : ℕ)), .fin false 0⟩ := by
    rw [MapToBrowser_of_positive narrowWidget _ (by decide) (by decide)]
    show some (QPointF.mk ((qreal.ofInt 525).mul ((qreal.ofInt 1280).div (qreal.ofInt 525)))
      ((qreal.ofInt 0).mul ((qreal.ofInt 720).div (qreal.ofInt 180)))) = _
    rw [hx, hy]
  refine ⟨rfl, rfl, hres, ?_⟩
  rw [hres]
  intro h
  have h2 := congrArg (fun o => o.map QPointF.xp) h
  simp [qreal.ofInt] at h2

/-- C1, amended: with a display surface of positive width `w` and height `h` and a
browser surface of size `(W, H)` (two `int`s), `MapToBrowser` sends `(x, y)` to
`(x * (W / w), y * (H / h))` computed in binary64: for finite `x` and `y` each coordinate
is the exact product of the coordinate and the rounded quotient, rounded again.  The
corner `(0, 0)` goes to zeros; the corners `(w, 0)`, `(0, h)` and `(w, h)` go to `(W, 0)`,
`(0, H)` and `(W, H)` when the quotients `W / w` and `H / h` are binary64 values; and
with sizes `(320, 180)` and `(1280, 720)` the point `(160, 90)` goes to `(640, 360)`. -/
theorem MapToBrowser_rounds (self : HyprBrowserTextureWidget) (w h W H : Int)
    (hp : self.preview.size = ⟨w, h⟩) (hb : self.browser.size = ⟨W, H⟩)
    (hw : 0 < w) (hh : 0 < h) (hW : W.natAbs ≤ 2 ^ 31) (hH : H.natAbs ≤ 2 ^ 31) :
    (∀ x y : qreal, (self.MapToBrowser ⟨x, y⟩).result =
        some ⟨x.mul ((qreal.ofInt W).div (qreal.ofInt w)),
          y.mul ((qreal.ofInt H).div (qreal.ofInt h))⟩)
    ∧ (∀ (sx sy : Bool) (mx my : ℚ),
        (self.MapToBrowser ⟨.fin sx mx, .fin sy my⟩).result =
          some ⟨qreal.round (xor sx (decide (W < 0)))
              (mx * roundMagnitude ((W.natAbs : ℚ) / (w.natAbs : ℚ))),
            qreal.round (xor sy (decide (H < 0)))
              (my * roundMagnitude ((H.natAbs : ℚ) / (h.natAbs : ℚ)))⟩)
    ∧ (self.MapToBrowser ⟨qreal.ofInt 0, qreal.ofInt 0⟩).result =
        some ⟨.fin (decide (W < 0)) 0, .fin (decide (H < 0)) 0⟩
    ∧ (roundMagnitude ((W.natAbs : ℚ) / (w.natAbs : ℚ)) = (W.natAbs : ℚ) / (w.natAbs : ℚ) →
        (self.MapToBrowser ⟨qreal.ofInt w, qreal.ofInt 0⟩).result =
          some ⟨qreal.ofInt W, .fin (decide (H < 0)) 0⟩)
    ∧ (roundMagnitude ((H.natAbs : ℚ) / (h.natAbs : ℚ)) = (H.natAbs : ℚ) / (h.natAbs : ℚ) →
        (self.MapToBrowser ⟨qreal.ofInt 0, qreal.ofInt h⟩).result =
          some ⟨.fin (decide (W < 0)) 0, qreal.ofInt H⟩)
    ∧ (roundMagnitude ((W.natAbs : ℚ) / (w.natAbs : ℚ)) = (W.natAbs : ℚ) / (w.natAbs : ℚ) →
        roundMagnitude ((H.natAbs : ℚ) / (h.natAbs : ℚ)) = (H.natAbs : ℚ) / (h.natAbs : ℚ) →
        (self.MapToBrowser ⟨qreal.ofInt w, qreal.ofInt h⟩).result =
          some ⟨qreal.ofInt W, qreal.ofInt H⟩)
    ∧ (w = 320 → h = 180 → W = 1280 → H = 720 →
        (self.MapToBrowser ⟨qreal.ofInt 160, qreal.ofInt 90⟩).result =
          some ⟨qreal.ofInt 640, qreal.ofInt 360⟩) := by
  have hw2 : 0 < self.preview.size.wd := by rw [hp]; exact hw
  have hh2 : 0 < self.preview.size.ht := by rw [hp]; exact hh
  have hgen : ∀ x y : qreal, (self.MapToBrowser ⟨x, y⟩).result =
      some ⟨x.mul ((qreal.ofInt W).div (qreal.ofInt w)),
        y.mul ((qreal.ofInt H).div (qreal.ofInt h))⟩ := by
    intro x y
    rw [MapToBrowser_of_positive self _ hw2 hh2, hp, hb]
  refine ⟨hgen, ?_, ?_, ?_, ?_, ?_, ?_⟩
  · intro sx sy mx my
    rw [hgen, qreal.div_ofInt W w hw hW, qreal.div_ofInt H h hh hH]
    rfl
  · rw [hgen, MapToBrowser_zero_axis W w hw hW, MapToBrowser_zero_axis H h hh hH]
  · intro hqx
    rw [hgen, MapToBrowser_edge_axis W w hw hW hqx, MapToBrowser_zero_axis H h hh hH]
  · intro hqy
    rw [hgen, MapToBrowser_zero_axis W w hw hW, MapToBrowser_edge_axis H h hh hH hqy]
  · intro hqx hqy
    rw [hgen, MapToBrowser_edge_axis W w hw hW hqx, MapToBrowser_edge_axis H h hh hH hqy]
  · intro e1 e2 e3 e4
    subst e1 e2 e3 e4
    rw [hgen, qreal.div_ofInt 1280 320 (by norm_num) (by decide),
      qreal.div_ofInt 720 180 (by norm_num) (by decide)]
    have h1 : (((1280 : Int).natAbs : ℚ) / ((320 : Int).natAbs : ℚ)) = ((4 : ℕ) : ℚ) := by
      norm_num
    have h2 : (((720 : Int).natAbs : ℚ) / ((180 : Int).natAbs : ℚ)) = ((4 : ℕ) : ℚ) := by
      norm_num
    rw [h1, h2, roundMagnitude_natCast 4 (by norm_num)]
    have h3 : (qreal.ofInt 160).mul (.fin (decide ((1280 : Int) < 0)) ((4 : ℕ) : ℚ)) =
        qreal.round false ((640 : ℕ) : ℚ) := by
      simp [qreal.ofInt, qreal.mul]
      norm_num
    have h4 : (qreal.ofInt 90).mul (.fin (decide ((720 : Int) < 0)) ((4 : ℕ) : ℚ)) =
        qreal.round false ((360 : ℕ) : ℚ) := by
      simp [qreal.ofInt, qreal.mul]
      norm_num
    rw [h3, h4, qreal.round_natCast _ 640 (by norm_num),
      qreal.round_natCast _ 360 (by norm_num)]
    simp [qreal.ofInt]

/-- C1, amended, at the widget of the scenario: display surface 320 by 180, browser
surface 1280 by 720; the pointer at (160, 90) goes to (640, 360) and the corner (320, 180)
to (1280, 720), the scale 4 being a binary64 value. -/
theorem MapToBrowser_rounds_witness :
    (sampleWidget.MapToBrowser ⟨qreal.ofInt 160, qreal.ofInt 90⟩).result =
        some ⟨qreal.ofInt 640, qreal.ofInt 360⟩
    ∧ (sampleWidget.MapToBrowser ⟨qreal.ofInt 320, qreal.ofInt 180⟩).result =
        some ⟨qreal.ofInt 1280, qreal.ofInt 720⟩ := by
  have h := MapToBrowser_rounds sampleWidget 320 180 1280 720 rfl rfl (by decide) (by decide)
    (by decide) (by decide)
  have h1 : roundMagnitude (((1280 : Int).natAbs : ℚ) / ((320 : Int).natAbs : ℚ)) =
      ((1280 : Int).natAbs : ℚ) / ((320 : Int).natAbs : ℚ) := by
    have e : (((1280 : Int).natAbs : ℚ) / ((320 : Int).natAbs : ℚ)) = ((4 : ℕ) : ℚ) := by
      norm_num
    rw [e, roundMagnitude_natCast 4 (by norm_num)]
  have h2 : roundMagnitude (((720 : Int).natAbs : ℚ) / ((180 : Int).natAbs : ℚ)) =
      ((720 : Int).natAbs : ℚ) / ((180 : Int).natAbs : ℚ) := by
    have e : (((720 : Int).natAbs : ℚ) / ((180 : Int).natAbs : ℚ)) = ((4 : ℕ) : ℚ) := by
      norm_num
    rw [e, roundMagnitude_natCast 4 (by norm_num)]
  exact ⟨h.2.2.2.2.2.2 rfl rfl rfl rfl, h.2.2.2.2.2.1 h1 h2⟩

/-- C2: when the display surface has width zero or height zero, `MapToBrowser` returns
the point it was given and evaluates no division; on every path each division it
evaluates has a non-zero divisor, and it divides only when both the width and the height
of the display surface are non-zero. -/
theorem MapToBrowser_degenerate (self : HyprBrowserTextureWidget) (p : QPointF) :
    (self.preview.size.wd = 0 ∨ self.preview.size.ht = 0 →
        self.MapToBrowser p = ⟨[], some p⟩)
    ∧ (∀ d ∈ (self.MapToBrowser p).divisors, d.isZero = false)
    ∧ ((self.MapToBrowser p).divisors ≠ [] →
        self.preview.size.wd ≠ 0 ∧ self.preview.size.ht ≠ 0)
    ∧ (self.MapToBrowser p).result ≠ none := by
  refine ⟨?_, ?_, ?_, ?_⟩
  · intro h
    apply MapToBrowser_of_empty
    rcases h with h | h
    · exact Or.inl (le_of_eq h)
    · exact Or.inr (le_of_eq h)
  · by_cases h : self.preview.size.wd ≤ 0 ∨ self.preview.size.ht ≤ 0
    · rw [MapToBrowser_of_empty self p h]
      simp
    · push_neg at h
      rw [MapToBrowser_of_positive self p h.1 h.2]
      intro d hd
      simp only [List.mem_cons, List.mem_singleton, List.not_mem_nil, or_false] at hd
      rcases hd with hd | hd
      · rw [hd, qreal.ofInt_isZero]
        exact decide_eq_false (ne_of_gt h.1)
      · rw [hd, qreal.ofInt_isZero]
        exact decide_eq_false (ne_of_gt h.2)
  · intro hne
    by_cases h : self.preview.size.wd ≤ 0 ∨ self.preview.size.ht ≤ 0
    · rw [MapToBrowser_of_empty self p h] at hne
      exact absurd rfl hne
    · push_neg at h
      exact ⟨ne_of_gt h.1, ne_of_gt h.2⟩
  · obtain ⟨q, hq⟩ := MapToBrowser_result_isSome self p
    rw [hq]
    simp

/-! ## Address normalisation -/

/-- C3: for an address `s` in the address field, the handler of the direct-embed panel and
the handler of the texture panel each pass exactly one URL to `load`, built from the same
string `u`, where `u` is `s` when `s` begins with "http://" or "https://" and is
"https://" followed by `s` otherwise. -/
theorem returnPressed_loads_normalized (s : QString) (panel : BrowserContent)
    (tex : HyprBrowserTextureWidget) (hp : panel.urlInput.text = s)
    (ht : tex.urlInput.text = s) :
    ∃ u : QString,
      (CreateBrowserContent.returnPressed panel).realBrowser.loaded =
          panel.realBrowser.loaded ++ [⟨u⟩]
      ∧ tex.returnPressed.browser.loaded = tex.browser.loaded ++ [⟨u⟩]
      ∧ (s.startsWith "http://".data = true ∨ s.startsWith "https://".data = true → u = s)
      ∧ (¬ (s.startsWith "http://".data = true ∨ s.startsWith "https://".data = true) →
          u = "https://".data ++ s) := by
  by_cases h : s.startsWith "http://".data = true ∨ s.startsWith "https://".data = true
  · refine ⟨s, ?_, ?_, fun _ => rfl, fun hn => absurd h hn⟩
    · rcases h with h | h <;>
        simp [CreateBrowserContent.returnPressed, QWebEngineView.load, hp, h]
    · rcases h with h | h <;>
        simp [HyprBrowserTextureWidget.returnPressed, QWebEngineView.load, ht, h]
  · refine ⟨"https://".data ++ s, ?_, ?_, fun hy => absurd hy h, fun _ => rfl⟩
    · push_neg at h
      simp [CreateBrowserContent.returnPressed, QWebEngineView.load, hp, h.1, h.2]
    · push_neg at h
      simp [HyprBrowserTextureWidget.returnPressed, QWebEngineView.load, ht, h.1, h.2]

/-- C3 at the address "google.com": both handlers load "https://google.com", once. -/
theorem returnPressed_loads_normalized_witness :
    (CreateBrowserContent.returnPressed
        ⟨⟨"google.com".data⟩, ⟨⟨1280, 720⟩, [], []⟩⟩).realBrowser.loaded =
      [⟨"https://google.com".data⟩]
    ∧ sampleWidget.returnPressed.browser.loaded = [⟨"https://google.com".data⟩] := by
  obtain ⟨u, h1, h2, _, h4⟩ := returnPressed_loads_normalized "google.com".data
    ⟨⟨"google.com".data⟩, ⟨⟨1280, 720⟩, [], []⟩⟩ sampleWidget rfl rfl
  have hu : u = "https://".data ++ "google.com".data := h4 (by decide)
  subst hu
  exact ⟨h1, h2⟩

/-! ## Frame sampling -/

/-- C7: a tick whose snapshot is null leaves the whole widget state, the pixmap of the
display surface included, as it was. -/
theorem UpdateFrame_null (self : HyprBrowserTextureWidget) (grabbed : QPixmap)
    (h : grabbed.isNull = true) :
    self.UpdateFrame grabbed = self
    ∧ (self.UpdateFrame grabbed).preview.pixmap = self.preview.pixmap := by
  have h1 : self.UpdateFrame grabbed = self := by
    simp [HyprBrowserTextureWidget.UpdateFrame, h]
  exact ⟨h1, by rw [h1]⟩

/-- C7 at the sample widget and the null pixmap. -/
theorem UpdateFrame_null_witness :
    sampleWidget.UpdateFrame QPixmap.null = sampleWidget :=
  (UpdateFrame_null sampleWidget QPixmap.null rfl).1

/-- C8 fails as stated: with a display surface of size 0 by 0, a tick with a non-null
snapshot stores the snapshot scaled to 320 by 180, not to the current size. -/
theorem UpdateFrame_empty_size_counterexample :
    (QPixmap.frame 1 ⟨1280, 720⟩).isNull = false
    ∧ (({ sampleWidget with preview := ⟨⟨0, 0⟩, none⟩ } :
          HyprBrowserTextureWidget).UpdateFrame (QPixmap.frame 1 ⟨1280, 720⟩)).preview.pixmap =
        some ((QPixmap.frame 1 ⟨1280, 720⟩).scaled ⟨320, 180⟩ .KeepAspectRatio
          .SmoothTransformation)
    ∧ (({ sampleWidget with preview := ⟨⟨0, 0⟩, none⟩ } :
          HyprBrowserTextureWidget).UpdateFrame (QPixmap.frame 1 ⟨1280, 720⟩)).preview.pixmap ≠
        some ((QPixmap.frame 1 ⟨1280, 720⟩).scaled ⟨0, 0⟩ .KeepAspectRatio
          .SmoothTransformation) := by
  refine ⟨rfl, ?_, ?_⟩ <;> decide

/-- C8, amended: a tick with a non-null snapshot sets the content of the display surface
to the snapshot scaled, aspect ratio preserved, to the current size of the display surface
when that size is not empty (width and height at least one), and to 320 by 180 when it is
empty; nothing else in the widget changes. -/
theorem UpdateFrame_sets_scaled (self : HyprBrowserTextureWidget) (grabbed : QPixmap)
    (h : grabbed.isNull = false) :
    (1 ≤ self.preview.size.wd ∧ 1 ≤ self.preview.size.ht →
        (self.UpdateFrame grabbed).preview.pixmap =
          some (grabbed.scaled self.preview.size .KeepAspectRatio .SmoothTransformation))
    ∧ (self.preview.size.wd < 1 ∨ self.preview.size.ht < 1 →
        (self.UpdateFrame grabbed).preview.pixmap =
          some (grabbed.scaled ⟨320, 180⟩ .KeepAspectRatio .SmoothTransformation))
    ∧ (self.UpdateFrame grabbed).preview.size = self.preview.size
    ∧ (self.UpdateFrame grabbed).browser = self.browser
    ∧ (self.UpdateFrame grabbed).urlInput = self.urlInput
    ∧ (self.UpdateFrame grabbed).focus = self.focus := by
  refine ⟨?_, ?_, ?_, ?_, ?_, ?_⟩
  · rintro ⟨h1, h2⟩
    have he : self.preview.size.isEmpty = false := by
      simp [QSize.isEmpty, h1, h2]
    simp [HyprBrowserTextureWidget.UpdateFrame, h, he, QLabel.setPixmap]
  · intro h1
    have he : self.preview.size.isEmpty = true := by
      simpa [QSize.isEmpty] using h1
    simp [HyprBrowserTextureWidget.UpdateFrame, h, he, QLabel.setPixmap]
  all_goals simp [HyprBrowserTextureWidget.UpdateFrame, h, QLabel.setPixmap]

/-- C8, amended, at a widget whose display surface is 640 by 400. -/
theorem UpdateFrame_sets_scaled_witness :
    (({ sampleWidget with preview := ⟨⟨640, 400⟩, none⟩ } :
        HyprBrowserTextureWidget).UpdateFrame (QPixmap.frame 1 ⟨1280, 720⟩)).preview.pixmap =
      some ((QPixmap.frame 1 ⟨1280, 720⟩).scaled ⟨640, 400⟩ .KeepAspectRatio
        .SmoothTransformation) :=
  (UpdateFrame_sets_scaled { sampleWidget with preview := ⟨⟨640, 400⟩, none⟩ }
    (QPixmap.frame 1 ⟨1280, 720⟩) rfl).1 ⟨by decide, by decide⟩

/-! ## Environment probe and dock creation -/

theorem QString.compare_eq_zero_iff (foldCase : Char → Char) (a b : QString) :
    QString.compare foldCase a b = 0 ↔ a.map foldCase = b.map foldCase := by
  induction a generalizing b with
  | nil =>
    cases b with
    | nil => simp [QString.compare]
    | cons y t => simp [QString.compare]
  | cons x s ih =>
    cases b with
    | nil => simp [QString.compare]
    | cons y t =>
      by_cases hxy : foldCase x = foldCase y
      · simp [QString.compare, hxy, ih]
      · by_cases hlt : (foldCase x).toNat < (foldCase y).toNat
        · simp [QString.compare, hxy, hlt]
        · simp [QString.compare, hxy, hlt]

theorem IsWaylandSession_iff (foldCase : Char → Char) (env : Environment) :
    IsWaylandSession foldCase env = true ↔ WaylandMarkers foldCase env := by
  unfold IsWaylandSession WaylandMarkers qEnvironmentVariableIsSet qEnvironmentVariable
  by_cases hd : (env "WAYLAND_DISPLAY").isSome = true
  · simp [hd]
  · by_cases hs : (env "WAYLAND_SOCKET").isSome = true
    · simp [hs]
    · simp only [hd, hs, Bool.or_self, Bool.false_eq_true, if_false, or_false,
        decide_eq_true_eq, QString.compare_eq_zero_iff]
      cases hv : env "XDG_SESSION_TYPE" with
      | none => simp
      | some v => simp

theorem IsWaylandSession_congr (foldCase : Char → Char) (env env2 : Environment)
    (h : ∀ name, name ≠ "XDG_CURRENT_DESKTOP" → env2 name = env name) :
    IsWaylandSession foldCase env2 = IsWaylandSession foldCase env := by
  unfold IsWaylandSession qEnvironmentVariableIsSet qEnvironmentVariable
  rw [h "WAYLAND_DISPLAY" (by decide), h "WAYLAND_SOCKET" (by decide),
    h "XDG_SESSION_TYPE" (by decide)]

/-- C4: with a non-null host main window, `CreateHyprDock` attaches the texture dock
exactly when the session type equals "wayland" up to case or `WAYLAND_DISPLAY` is set or
`WAYLAND_SOCKET` is set, and the direct-embed dock exactly when none of these holds; two
environments that differ only in `XDG_CURRENT_DESKTOP` lead to the same main window. -/
theorem CreateHyprDock_choice (foldCase : Char → Char) (env : Environment) (host : Host)
    (mainWindow : QMainWindow) (h : host.mainWindow = some mainWindow) :
    ((CreateHyprDock foldCase env host).mainWindow =
        some (AttachAndShowDock mainWindow HyprBrowserTextureDock.new
          .RightDockWidgetArea false)
      ↔ WaylandMarkers foldCase env)
    ∧ ((CreateHyprDock foldCase env host).mainWindow =
        some (AttachAndShowDock mainWindow HyprBrowserDock.new .RightDockWidgetArea true)
      ↔ ¬ WaylandMarkers foldCase env)
    ∧ (∀ env2 : Environment,
        (∀ name, name ≠ "XDG_CURRENT_DESKTOP" → env2 name = env name) →
        (CreateHyprDock foldCase env2 host).mainWindow =
          (CreateHyprDock foldCase env host).mainWindow) := by
  have hne : AttachAndShowDock mainWindow HyprBrowserTextureDock.new
        .RightDockWidgetArea false ≠
      AttachAndShowDock mainWindow HyprBrowserDock.new .RightDockWidgetArea true := by
    intro heq
    have hd := congrArg QMainWindow.docks heq
    simp [AttachAndShowDock, HyprBrowserTextureDock.new, HyprBrowserDock.new] at hd
  have hT : IsWaylandSession foldCase env = true →
      (CreateHyprDock foldCase env host).mainWindow =
        some (AttachAndShowDock mainWindow HyprBrowserTextureDock.new
          .RightDockWidgetArea false) := by
    intro hw
    simp [CreateHyprDock, h, hw]
  have hD : ¬ IsWaylandSession foldCase env = true →
      (CreateHyprDock foldCase env host).mainWindow =
        some (AttachAndShowDock mainWindow HyprBrowserDock.new
          .RightDockWidgetArea true) := by
    intro hw
    simp [CreateHyprDock, h, hw]
  refine ⟨?_, ?_, ?_⟩
  · rw [← IsWaylandSession_iff]
    constructor
    · intro heq
      by_contra hw
      rw [hD hw] at heq
      exact hne (Option.some.inj heq).symm
    · exact hT
  · rw [← IsWaylandSession_iff]
    constructor
    · intro heq hw
      rw [hT hw] at heq
      exact hne (Option.some.inj heq)
    · exact hD
  · intro env2 h2
    have hc := IsWaylandSession_congr foldCase env env2 h2
    simp only [CreateHyprDock, h, hc]
    by_cases hw : IsWaylandSession foldCase env = true
    · simp [hw]
    · simp [hw]

/-- C4 in the Hyprland environment (session type "Wayland", desktop "Hyprland"), against
the same environment with the desktop changed: the texture dock is attached in both. -/
theorem CreateHyprDock_choice_witness :
    (CreateHyprDock Char.toLower hyprlandEnv ⟨some ⟨[]⟩, []⟩).mainWindow =
      some (AttachAndShowDock ⟨[]⟩ HyprBrowserTextureDock.new .RightDockWidgetArea false)
    ∧ (CreateHyprDock Char.toLower
        (fun name => if name = "XDG_CURRENT_DESKTOP" then some "GNOME".data
          else hyprlandEnv name) ⟨some ⟨[]⟩, []⟩).mainWindow =
      (CreateHyprDock Char.toLower hyprlandEnv ⟨some ⟨[]⟩, []⟩).mainWindow := by
  have hc := CreateHyprDock_choice Char.toLower hyprlandEnv ⟨some ⟨[]⟩, []⟩ ⟨[]⟩ rfl
  refine ⟨hc.1.mpr ?_, hc.2.2 _ ?_⟩
  · exact Or.inl ⟨"Wayland".data, rfl, by decide⟩
  · intro name hn
    simp [hn]

/-- C9: when the host main-window query returns null, `CreateHyprDock` (in every
environment) and `CreateHyprTextureDock` leave the host as it was: no dock is attached
and no line is logged. -/
theorem CreateDock_null_main_window (foldCase : Char → Char) (env : Environment)
    (host : Host) (h : host.mainWindow = none) :
    CreateHyprDock foldCase env host = host ∧ CreateHyprTextureDock host = host := by
  constructor
  · simp [CreateHyprDock, h]
  · simp [CreateHyprTextureDock, h]

/-- C9 in the Hyprland environment with a host that has no main window yet. -/
theorem CreateDock_null_main_window_witness :
    CreateHyprDock Char.toLower hyprlandEnv ⟨none, []⟩ = ⟨none, []⟩
    ∧ CreateHyprTextureDock ⟨none, []⟩ = ⟨none, []⟩ :=
  CreateDock_null_main_window Char.toLower hyprlandEnv ⟨none, []⟩ rfl

/-! ## Input remapping -/

theorem eventFilter_mouse (base : QObjectRef → QEvent → Bool)
    (self : HyprBrowserTextureWidget) (me : QMouseEvent) (pos : QPointF)
    (hne : me.type ≠ .MouseButtonDblClick)
    (hpos : (self.MapToBrowser me.position).result = some pos) :
    self.eventFilter base .preview (.mouse me) =
      some (true,
        { self with
          browser := self.browser.sendEvent (.mouse { me with position := pos })
          focus := some QObjectRef.preview }) := by
  rcases me with ⟨ty, p, b, bs, m⟩
  cases ty
  · simp_all [HyprBrowserTextureWidget.eventFilter, QEvent.type, MouseEventType.toType,
      QEvent.asMouse, HyprBrowserTextureWidget.setFocusPreview]
  · simp_all [HyprBrowserTextureWidget.eventFilter, QEvent.type, MouseEventType.toType,
      QEvent.asMouse, HyprBrowserTextureWidget.setFocusPreview]
  · exact absurd rfl hne
  · simp_all [HyprBrowserTextureWidget.eventFilter, QEvent.type, MouseEventType.toType,
      QEvent.asMouse, HyprBrowserTextureWidget.setFocusPreview]

theorem eventFilter_wheel (base : QObjectRef → QEvent → Bool)
    (self : HyprBrowserTextureWidget) (we : QWheelEvent) (pos : QPointF)
    (hpos : (self.MapToBrowser we.position).result = some pos) :
    self.eventFilter base .preview (.wheel we) =
      some (true,
        { self with
          browser := self.browser.sendEvent (.wheel { we with position := pos }) }) := by
  simp [HyprBrowserTextureWidget.eventFilter, QEvent.type, QEvent.asWheel, hpos]

theorem eventFilter_key (base : QObjectRef → QEvent → Bool)
    (self : HyprBrowserTextureWidget) (ke : QKeyEvent)
    (hne : ke.type ≠ .ShortcutOverride) :
    self.eventFilter base .preview (.key ke) =
      some (true, { self with browser := self.browser.sendEvent (.key ke) }) := by
  rcases ke with ⟨ty, k, m, sc, vk, nm, t, ar, c⟩
  cases ty
  · simp [HyprBrowserTextureWidget.eventFilter, QEvent.type, KeyEventType.toType,
      QEvent.asKey]
  · simp [HyprBrowserTextureWidget.eventFilter, QEvent.type, KeyEventType.toType,
      QEvent.asKey]
  · exact absurd rfl hne

theorem eventFilter_not_intercepted (base : QObjectRef → QEvent → Bool)
    (self : HyprBrowserTextureWidget) (watched : QObjectRef) (event : QEvent)
    (h : ¬ (watched = .preview ∧ event.type ∈ interceptedTypes)) :
    self.eventFilter base watched event = some (base watched event, self) := by
  by_cases hw : watched = .preview
  · have ht : event.type ∉ interceptedTypes := fun hm => h ⟨hw, hm⟩
    subst hw
    cases event with
    | mouse me =>
      rcases me with ⟨ty, p, b, bs, m⟩
      cases ty <;>
        simp_all [HyprBrowserTextureWidget.eventFilter, QEvent.type, MouseEventType.toType,
          interceptedTypes]
    | wheel we => simp [QEvent.type, interceptedTypes] at ht
    | key ke =>
      rcases ke with ⟨ty, k, m, sc, vk, nm, t, ar, c⟩
      cases ty <;>
        simp_all [HyprBrowserTextureWidget.eventFilter, QEvent.type, KeyEventType.toType,
          interceptedTypes]
    | plain t =>
      cases t <;>
        simp [HyprBrowserTextureWidget.eventFilter, QEvent.type, PlainEventType.toType]
  · simp [HyprBrowserTextureWidget.eventFilter, hw]

/-- C5: the event the filter delivers to the browser for an intercepted event is an event
of the same class and type whose fields all equal those of the original, except that the
position of a mouse or wheel event is `MapToBrowser` of the original position; a key
event is delivered as it is. -/
theorem eventFilter_preserves_fields (base : QObjectRef → QEvent → Bool)
    (self : HyprBrowserTextureWidget) :
    (∀ me : QMouseEvent, me.type ≠ .MouseButtonDblClick →
      ∃ pos s, (self.MapToBrowser me.position).result = some pos
        ∧ self.eventFilter base .preview (.mouse me) = some (true, s)
        ∧ s.browser.received = self.browser.received ++
            [.mouse ⟨me.type, pos, me.button, me.buttons, me.modifiers⟩])
    ∧ (∀ we : QWheelEvent,
      ∃ pos s, (self.MapToBrowser we.position).result = some pos
        ∧ self.eventFilter base .preview (.wheel we) = some (true, s)
        ∧ s.browser.received = self.browser.received ++
            [.wheel ⟨pos, we.globalPosition, we.pixelDelta, we.angleDelta, we.buttons,
              we.modifiers, we.phase, we.inverted, we.source⟩])
    ∧ (∀ ke : QKeyEvent, ke.type ≠ .ShortcutOverride →
      ∃ s, self.eventFilter base .preview (.key ke) = some (true, s)
        ∧ s.browser.received = self.browser.received ++ [.key ke]) := by
  refine ⟨?_, ?_, ?_⟩
  · intro me hne
    obtain ⟨pos, hpos⟩ := MapToBrowser_result_isSome self me.position
    exact ⟨pos, _, hpos, eventFilter_mouse base self me pos hne hpos, rfl⟩
  · intro we
    obtain ⟨pos, hpos⟩ := MapToBrowser_result_isSome self we.position
    exact ⟨pos, _, hpos, eventFilter_wheel base self we pos hpos, rfl⟩
  · intro ke hne
    exact ⟨_, eventFilter_key base self ke hne, rfl⟩

/-- C6 fails as stated: a wheel event over the preview, arriving while the address field
holds focus, is intercepted and leaves the focus with the address field. -/
theorem eventFilter_wheel_focus_counterexample :
    QEvent.type (.wheel sampleWheel) ∈ interceptedTypes
    ∧ sampleWidget.focus = some QObjectRef.urlInput
    ∧ (sampleWidget.eventFilter (fun _ _ => false) .preview (.wheel sampleWheel)).map
        (fun r => (r.1, r.2.focus)) = some (true, some QObjectRef.urlInput)
    ∧ (sampleWidget.eventFilter (fun _ _ => false) .preview (.wheel sampleWheel)).map
        (fun r => r.2.focus) ≠ some (some QObjectRef.preview) := by
  have hpos := congrArg Evaluated.result
    (MapToBrowser_of_positive sampleWidget sampleWheel.position (by decide) (by decide))
  rw [eventFilter_wheel _ sampleWidget sampleWheel _ hpos]
  refine ⟨by decide, rfl, rfl, ?_⟩
  simp [sampleWidget]

/-- C6, amended: after the filter has handled an intercepted pointer press, release or
move, the preview holds input focus; after it has handled an intercepted wheel, key-press
or key-release event, the focus is where it was before (so the preview holds it exactly
when it held it before). -/
theorem eventFilter_focus (base : QObjectRef → QEvent → Bool)
    (self : HyprBrowserTextureWidget) :
    (∀ me : QMouseEvent, me.type ≠ .MouseButtonDblClick →
      ∃ s, self.eventFilter base .preview (.mouse me) = some (true, s)
        ∧ s.focus = some QObjectRef.preview)
    ∧ (∀ we : QWheelEvent,
      ∃ s, self.eventFilter base .preview (.wheel we) = some (true, s)
        ∧ s.focus = self.focus)
    ∧ (∀ ke : QKeyEvent, ke.type ≠ .ShortcutOverride →
      ∃ s, self.eventFilter base .preview (.key ke) = some (true, s)
        ∧ s.focus = self.focus) := by
  refine ⟨?_, ?_, ?_⟩
  · intro me hne
    obtain ⟨pos, hpos⟩ := MapToBrowser_result_isSome self me.position
    exact ⟨_, eventFilter_mouse base self me pos hne hpos, rfl⟩
  · intro we
    obtain ⟨pos, hpos⟩ := MapToBrowser_result_isSome self we.position
    exact ⟨_, eventFilter_wheel base self we pos hpos, rfl⟩
  · intro ke hne
    exact ⟨_, eventFilter_key base self ke hne, rfl⟩

/-- C10: when the watched object is the preview and the type of the event is one of
`MouseButtonPress`, `MouseButtonRelease`, `MouseMove`, `Wheel`, `KeyPress` and
`KeyRelease`, the filter sends exactly one event to the browser and returns true; in
every other case it sends nothing, leaves the widget as it was, and returns what the
filter of the base class returns. -/
theorem eventFilter_dispatch (base : QObjectRef → QEvent → Bool)
    (self : HyprBrowserTextureWidget) (watched : QObjectRef) (event : QEvent) :
    (watched = .preview ∧ event.type ∈ interceptedTypes →
      ∃ s e, self.eventFilter base watched event = some (true, s)
        ∧ s.browser.received = self.browser.received ++ [e])
    ∧ (¬ (watched = .preview ∧ event.type ∈ interceptedTypes) →
      self.eventFilter base watched event = some (base watched event, self)) := by
  refine ⟨?_, eventFilter_not_intercepted base self watched event⟩
  rintro ⟨hw, ht⟩
  subst hw
  cases event with
  | mouse me =>
    have hne : me.type ≠ .MouseButtonDblClick := by
      intro h
      simp [QEvent.type, h, MouseEventType.toType, interceptedTypes] at ht
    obtain ⟨pos, hpos⟩ := MapToBrowser_result_isSome self me.position
    exact ⟨_, _, eventFilter_mouse base self me pos hne hpos, rfl⟩
  | wheel we =>
    obtain ⟨pos, hpos⟩ := MapToBrowser_result_isSome self we.position
    exact ⟨_, _, eventFilter_wheel base self we pos hpos, rfl⟩
  | key ke =>
    have hne : ke.type ≠ .ShortcutOverride := by
      intro h
      simp [QEvent.type, h, KeyEventType.toType, interceptedTypes] at ht
    exact ⟨_, _, eventFilter_key base self ke hne, rfl⟩
  | plain t =>
    cases t <;> simp [QEvent.type, PlainEventType.toType, interceptedTypes] at ht

end HyprBrowser
